import Mathlib

/-!
Shallow embedding of the task-board core (Shashank-Tomar-2004/Todo-task):
the entity model from `src/lib/types.ts`, the query helpers from
`src/lib/task-utils.ts`, the constants from `src/lib/constants.ts` and the
persistence sanitization layer from `src/lib/storage.ts`.

Modelling conventions:
* JS strings are Lean `String`s; `trim`/`toLowerCase`/`includes` are embedded
  as structural functions over `String.data` (`jsTrim`, `jsToLower`,
  `includesSub`) matching the JS behaviour on the ASCII strings the app works
  with.
* `new Date(s).getTime()` is abstracted as a parameter `getTime : String → Int`:
  the data model restricts stored date strings to ISO dates (or the empty
  string, which the code special-cases before parsing), and JS parses an ISO
  date to a finite number.  Theorems quantify over `getTime`.
* `Array.prototype.sort` (stable since ES2019) with comparator `c` is modelled
  as `List.mergeSort` with `le a b := c a b ≤ 0`; both are stable and order
  elements by the sign of the comparator.
* JSON values are the inductive `JValue`; a raw `localStorage` slot is
  `Option JValue`, `none` covering both an absent key and malformed JSON
  (`JSON.parse` throwing).  JS property access yields `none` for a missing
  field; reading a property of `null` throws, which is modelled with
  `Except Unit`.
-/

namespace TaskBoard

/-- Task status, `src/lib/types.ts` (`COLUMN_ORDER`). -/
inductive TaskStatus where
  | todo
  | doing
  | done
deriving DecidableEq

/-- Task priority, `src/lib/types.ts`. -/
inductive TaskPriority where
  | low
  | medium
  | high
deriving DecidableEq

/-- The `Task` record of `src/lib/types.ts`. -/
structure Task where
  id : String
  project : String
  title : String
  description : String
  priority : TaskPriority
  dueDate : String
  tags : List String
  status : TaskStatus
  createdAt : String
  favorite : Bool
deriving DecidableEq

/-- The `action` union of `ActivityItem`, `src/lib/types.ts`. -/
inductive ActivityAction where
  | created
  | edited
  | moved
  | deleted
  | favorited
  | message
  | document
deriving DecidableEq

/-- The `ActivityItem` record; `details` is optional in the source. -/
structure ActivityItem where
  id : String
  action : ActivityAction
  taskTitle : String
  timestamp : String
  details : Option String
deriving DecidableEq

/-- The `sender` union of `ChatMessage`. -/
inductive ChatSender where
  | me
  | teammate
deriving DecidableEq

/-- The `ChatMessage` record of `src/lib/types.ts`. -/
structure ChatMessage where
  id : String
  sender : ChatSender
  text : String
  timestamp : String
deriving DecidableEq

/-- The `DocumentItem` record; `size` is a JS number, always a byte count. -/
structure DocumentItem where
  id : String
  name : String
  mimeType : String
  size : Int
  uploadedAt : String
  dataUrl : String
deriving DecidableEq

/-- The `accent` union of `AppSettings`. -/
inductive Accent where
  | teal
  | blue
  | orange
deriving DecidableEq

/-- The `AppSettings` record of `src/lib/types.ts`. -/
structure AppSettings where
  compactCards : Bool
  showCompleted : Bool
  accent : Accent
deriving DecidableEq

/-- The aggregate `BoardState` of `src/lib/types.ts`. -/
structure BoardState where
  tasks : List Task
  activity : List ActivityItem
  messages : List ChatMessage
  documents : List DocumentItem
  settings : AppSettings
deriving DecidableEq

/-- `ACTIVITY_LIMIT` from `src/lib/constants.ts`. -/
def ACTIVITY_LIMIT : Nat := 20

/-- Sort direction parameter of `compareDueDates`/`filterAndSortTasks`. -/
inductive SortDir where
  | asc
  | desc
deriving DecidableEq

/-- Priority filter parameter of `filterAndSortTasks`: `"all" | TaskPriority`. -/
inductive PriorityFilter where
  | all
  | only (p : TaskPriority)
deriving DecidableEq

/-- The whitespace class stripped by JS `String.prototype.trim` (ASCII part). -/
def jsWhitespace (c : Char) : Bool :=
  c = ' ' || c = '\t' || c = '\n' || c = '\r'

/-- JS `String.prototype.trim`: drop whitespace from both ends. -/
def jsTrim (s : String) : String :=
  ⟨((s.data.dropWhile jsWhitespace).reverse.dropWhile jsWhitespace).reverse⟩

/-- JS `Char` lowercasing (ASCII range, the only case folding the app needs). -/
def jsCharLower (c : Char) : Char :=
  if 'A' ≤ c ∧ c ≤ 'Z' then Char.ofNat (c.toNat + 32) else c

/-- JS `String.prototype.toLowerCase` (ASCII). -/
def jsToLower (s : String) : String :=
  ⟨s.data.map jsCharLower⟩

/-- JS `String.prototype.includes`: `needle` occurs contiguously in `hay`. -/
def includesSub (hay needle : String) : Bool :=
  decide (needle.data <:+: hay.data)

/-- Due-date key of a task: `a.dueDate ? new Date(a.dueDate).getTime()
: Number.POSITIVE_INFINITY` with `none` standing for the positive infinity
used for an empty due date (`src/lib/task-utils.ts` lines 4-5). -/
def dueTime (getTime : String → Int) (t : Task) : Option Int :=
  if t.dueDate = "" then none else some (getTime t.dueDate)

/-- Sign-faithful surrogate for JS subtraction of two (possibly infinite) time
values; the sort consumes the comparator result only through its sign, and the
`none`/`none` case never reaches the subtraction because the comparator's
equality branch catches it first. -/
def subSign : Option Int → Option Int → Int
  | some x, some y => x - y
  | none, some _ => 1
  | some _, none => -1
  | none, none => 0

/-- `compareDueDates` from `src/lib/task-utils.ts`: equal due-date keys fall
back to the `createdAt` difference (direction-independent); otherwise the
direction decides which subtraction is returned. -/
def compareDueDates (getTime : String → Int) (a b : Task) (dir : SortDir) : Int :=
  let aTime := dueTime getTime a
  let bTime := dueTime getTime b
  if aTime = bTime then
    getTime a.createdAt - getTime b.createdAt
  else
    match dir with
    | .asc => subSign aTime bTime
    | .desc => subSign bTime aTime

/-- `filterAndSortTasks` from `src/lib/task-utils.ts`: lowercase the trimmed
search term, keep tasks whose lowercased title contains it (every task when the
term is empty) and whose priority matches the filter, then stable-sort by the
due-date comparator. -/
def filterAndSortTasks (getTime : String → Int) (tasks : List Task)
    (searchTerm : String) (priority : PriorityFilter) (sortDirection : SortDir) :
    List Task :=
  let term := jsToLower (jsTrim searchTerm)
  (tasks.filter fun task =>
      (if term = "" then true else includesSub (jsToLower task.title) term) &&
      (match priority with
       | .all => true
       | .only p => task.priority == p)).mergeSort
    (fun a b => decide (compareDueDates getTime a b sortDirection ≤ 0))

/-- `moveTaskStatus` from `src/lib/task-utils.ts`: map over the list replacing
the status of every task whose id matches. -/
def moveTaskStatus (tasks : List Task) (taskId : String) (nextStatus : TaskStatus) :
    List Task :=
  tasks.map fun task =>
    if task.id = taskId then { task with status := nextStatus } else task

/-- JSON values as produced by `JSON.parse` (numbers restricted to integers:
the only numeric field the app stores is a byte count). -/
inductive JValue where
  | null
  | bool (b : Bool)
  | num (n : Int)
  | str (s : String)
  | arr (xs : List JValue)
  | obj (fields : List (String × JValue))

/-- JS property access `v[key]` on a parsed JSON value: `none` models the JS
`undefined` (missing field, or access on a primitive).  `JSON.parse` output has
unique object keys (later duplicates overwrite earlier ones), so association
list lookup is adequate.  Access on `null` throws in JS and is handled at the
call sites that can receive `null`. -/
def JValue.getField : JValue → String → Option JValue
  | .obj fields, key => fields.lookup key
  | _, _ => none

/-- The JS test `value && typeof value === "object"`: `null` is falsy, arrays
and plain objects pass, every other JSON value fails. -/
def JValue.isObjectLike : JValue → Bool
  | .arr _ => true
  | .obj _ => true
  | _ => false

/-- `normalizeStatus` from `src/lib/storage.ts`; the argument is the accessed
property (`none` = `undefined`). -/
def normalizeStatus : Option JValue → TaskStatus
  | some (.str "todo") => .todo
  | some (.str "doing") => .doing
  | some (.str "done") => .done
  | _ => .todo

/-- `normalizePriority` from `src/lib/storage.ts`. -/
def normalizePriority : Option JValue → TaskPriority
  | some (.str "high") => .high
  | some (.str "medium") => .medium
  | some (.str "low") => .low
  | _ => .medium

/-- `sanitizeTask` from `src/lib/storage.ts`.  `freshId` stands for the
`Math.random().toString(36).slice(2)` fallback id and `now` for
`new Date().toISOString()`; no claim relies on their values.  A `null` array
element makes the JS field access `task.id` throw a `TypeError`, modelled by
`Except.error`. -/
def sanitizeTask (freshId now : String) (v : JValue) : Except Unit Task :=
  match v with
  | .null => .error ()
  | _ =>
    .ok {
      id := match v.getField "id" with
        | some (.str s) => s
        | _ => freshId
      project := match v.getField "project" with
        | some (.str s) => if jsTrim s = "" then "General" else s
        | _ => "General"
      title := match v.getField "title" with
        | some (.str s) => s
        | _ => "Untitled Task"
      description := match v.getField "description" with
        | some (.str s) => s
        | _ => ""
      priority := normalizePriority (v.getField "priority")
      dueDate := match v.getField "dueDate" with
        | some (.str s) => s
        | _ => ""
      tags := match v.getField "tags" with
        | some (.arr xs) =>
          xs.filterMap fun x =>
            match x with
            | .str s => some s
            | _ => none
        | _ => []
      status := normalizeStatus (v.getField "status")
      createdAt := match v.getField "createdAt" with
        | some (.str s) => s
        | _ => now
      favorite := match v.getField "favorite" with
        | some (.bool b) => b
        | _ => false
    }

/-- Sequential sanitization of the raw `tasks` array
(`parsed.tasks.map(sanitizeTask)`): JS `map` evaluates left to right and a
thrown `TypeError` aborts the whole map. -/
def sanitizeTasks (freshId now : String) : List JValue → Except Unit (List Task)
  | [] => .ok []
  | v :: vs =>
    match sanitizeTask freshId now v with
    | .error e => .error e
    | .ok t =>
      match sanitizeTasks freshId now vs with
      | .error e => .error e
      | .ok ts => .ok (t :: ts)

/-- The shape check of `sanitizeActivity` (`src/lib/storage.ts` lines 48-63)
as a decoder: the JS code keeps the raw object itself when the guard passes;
in the typed model the kept object is decoded into an `ActivityItem`, reading
the optional `details` as a string when present (the only shape the app ever
stores there). -/
def asActivity (v : JValue) : Option ActivityItem :=
  match v.getField "id", v.getField "taskTitle", v.getField "timestamp",
      v.getField "action" with
  | some (.str i), some (.str tt), some (.str ts), some act =>
    (match act with
     | .str "created" => some ActivityAction.created
     | .str "edited" => some ActivityAction.edited
     | .str "moved" => some ActivityAction.moved
     | .str "deleted" => some ActivityAction.deleted
     | .str "favorited" => some ActivityAction.favorited
     | .str "message" => some ActivityAction.message
     | .str "document" => some ActivityAction.document
     | _ => none).map fun a =>
      { id := i, action := a, taskTitle := tt, timestamp := ts,
        details := match v.getField "details" with
          | some (.str s) => some s
          | _ => none }
  | _, _, _, _ => none

/-- `sanitizeActivity` from `src/lib/storage.ts`: non-arrays become `[]`,
array elements failing the shape check are dropped. -/
def sanitizeActivity : Option JValue → List ActivityItem
  | some (.arr xs) => xs.filterMap asActivity
  | _ => []

/-- The shape check of `sanitizeMessages` as a decoder. -/
def asMessage (v : JValue) : Option ChatMessage :=
  match v.getField "id", v.getField "text", v.getField "timestamp",
      v.getField "sender" with
  | some (.str i), some (.str tx), some (.str ts), some snd =>
    (match snd with
     | .str "me" => some ChatSender.me
     | .str "teammate" => some ChatSender.teammate
     | _ => none).map fun s =>
      { id := i, sender := s, text := tx, timestamp := ts }
  | _, _, _, _ => none

/-- `sanitizeMessages` from `src/lib/storage.ts`. -/
def sanitizeMessages : Option JValue → List ChatMessage
  | some (.arr xs) => xs.filterMap asMessage
  | _ => []

/-- The shape check of `sanitizeDocuments` as a decoder. -/
def asDocument (v : JValue) : Option DocumentItem :=
  match v.getField "id", v.getField "name", v.getField "mimeType",
      v.getField "size", v.getField "uploadedAt", v.getField "dataUrl" with
  | some (.str i), some (.str nm), some (.str mt), some (.num sz),
      some (.str up), some (.str du) =>
    some { id := i, name := nm, mimeType := mt, size := sz,
           uploadedAt := up, dataUrl := du }
  | _, _, _, _, _, _ => none

/-- `sanitizeDocuments` from `src/lib/storage.ts`. -/
def sanitizeDocuments : Option JValue → List DocumentItem
  | some (.arr xs) => xs.filterMap asDocument
  | _ => []

/-- The settings defaults used by `sanitizeSettings` and `emptyBoardState`. -/
def defaultSettings : AppSettings :=
  { compactCards := false, showCompleted := true, accent := .teal }

/-- `sanitizeSettings` from `src/lib/storage.ts`. -/
def sanitizeSettings (v : Option JValue) : AppSettings :=
  match v with
  | some w =>
    if w.isObjectLike then
      { compactCards := match w.getField "compactCards" with
          | some (.bool b) => b
          | _ => false
        showCompleted := match w.getField "showCompleted" with
          | some (.bool b) => b
          | _ => true
        accent := match w.getField "accent" with
          | some (.str "blue") => Accent.blue
          | some (.str "orange") => Accent.orange
          | some (.str "teal") => Accent.teal
          | _ => Accent.teal }
    else defaultSettings
  | none => defaultSettings

/-- `emptyBoardState` from `src/lib/storage.ts`. -/
def emptyBoardState : BoardState :=
  { tasks := [], activity := [], messages := [], documents := [],
    settings := defaultSettings }

/-- `sanitizeBoardState` from `src/lib/storage.ts`.  The object literal
evaluates the `tasks` map first, so a `TypeError` thrown there (a `null` task
element) aborts the whole sanitization; the other sanitizers are total. -/
def sanitizeBoardState (freshId now : String) (raw : JValue) :
    Except Unit BoardState :=
  if raw.isObjectLike then
    match raw.getField "tasks" with
    | some (.arr xs) =>
      match sanitizeTasks freshId now xs with
      | .error e => .error e
      | .ok tasks =>
        .ok { tasks := tasks,
              activity := sanitizeActivity (raw.getField "activity"),
              messages := sanitizeMessages (raw.getField "messages"),
              documents := sanitizeDocuments (raw.getField "documents"),
              settings := sanitizeSettings (raw.getField "settings") }
    | _ =>
      .ok { tasks := [],
            activity := sanitizeActivity (raw.getField "activity"),
            messages := sanitizeMessages (raw.getField "messages"),
            documents := sanitizeDocuments (raw.getField "documents"),
            settings := sanitizeSettings (raw.getField "settings") }
  else
    .ok emptyBoardState

/-- The persisted payload wrapper of `src/lib/storage.ts`. -/
structure PersistedBoardPayload where
  version : Int
  updatedAt : String
  state : BoardState
deriving DecidableEq

/-- `new Date(0).toISOString()`, the default `updatedAt`. -/
def epochIso : String := "1970-01-01T00:00:00.000Z"

/-- `parsePersistedBoard` from `src/lib/storage.ts`.  The raw slot is
`Option JValue`: `none` covers both an absent key and malformed JSON.  The
whole body sits in a `try`, so a sanitization `TypeError` also yields `none`. -/
def parsePersistedBoard (freshId now : String) (raw : Option JValue) :
    Option PersistedBoardPayload :=
  match raw with
  | none => none
  | some parsed =>
    let result : Except Unit PersistedBoardPayload :=
      if parsed.isObjectLike ∧ (parsed.getField "state").isSome then
        (sanitizeBoardState freshId now ((parsed.getField "state").getD .null)).map
          fun st =>
            { version := match parsed.getField "version" with
                | some (.num n) => n
                | _ => 1
              updatedAt := match parsed.getField "updatedAt" with
                | some (.str s) => s
                | _ => epochIso
              state := st }
      else
        (sanitizeBoardState freshId now parsed).map fun st =>
          { version := 1, updatedAt := epochIso, state := st }
    result.toOption

/-- `loadBoardState` from `src/lib/storage.ts`: parse both slots, keep the
successful parses, sort by task count (descending) then `updatedAt`
(descending, via `getTime`), and return the first candidate's state; the empty
state if neither slot parses. -/
def loadBoardState (getTime : String → Int) (freshId now : String)
    (mainRaw backupRaw : Option JValue) : BoardState :=
  let main := parsePersistedBoard freshId now mainRaw
  let backup := parsePersistedBoard freshId now backupRaw
  let candidates := [main, backup].filterMap id
  match candidates with
  | [] => emptyBoardState
  | _ =>
    ((candidates.mergeSort fun a b =>
        decide ((if b.state.tasks.length ≠ a.state.tasks.length then
                   (b.state.tasks.length : Int) - a.state.tasks.length
                 else
                   getTime b.updatedAt - getTime a.updatedAt) ≤ 0)).headD
      ⟨1, epochIso, emptyBoardState⟩).state

/-- JSON encoding of a `TaskPriority` (what `JSON.stringify` emits). -/
def encodePriority : TaskPriority → JValue
  | .low => .str "low"
  | .medium => .str "medium"
  | .high => .str "high"

/-- JSON encoding of a `TaskStatus`. -/
def encodeStatus : TaskStatus → JValue
  | .todo => .str "todo"
  | .doing => .str "doing"
  | .done => .str "done"

/-- JSON encoding of a `Task`. -/
def encodeTask (t : Task) : JValue :=
  .obj [("id", .str t.id), ("project", .str t.project), ("title", .str t.title),
        ("description", .str t.description), ("priority", encodePriority t.priority),
        ("dueDate", .str t.dueDate), ("tags", .arr (t.tags.map .str)),
        ("status", encodeStatus t.status), ("createdAt", .str t.createdAt),
        ("favorite", .bool t.favorite)]

/-- JSON encoding of an `ActivityAction`. -/
def encodeAction : ActivityAction → JValue
  | .created => .str "created"
  | .edited => .str "edited"
  | .moved => .str "moved"
  | .deleted => .str "deleted"
  | .favorited => .str "favorited"
  | .message => .str "message"
  | .document => .str "document"

/-- JSON encoding of an `ActivityItem`; `JSON.stringify` omits an absent
optional `details`. -/
def encodeActivity (a : ActivityItem) : JValue :=
  .obj ([("id", .str a.id), ("action", encodeAction a.action),
         ("taskTitle", .str a.taskTitle), ("timestamp", .str a.timestamp)] ++
        match a.details with
        | some d => [("details", .str d)]
        | none => [])

/-- JSON encoding of a `ChatMessage`. -/
def encodeMessage (m : ChatMessage) : JValue :=
  .obj [("id", .str m.id),
        ("sender", .str (match m.sender with | .me => "me" | .teammate => "teammate")),
        ("text", .str m.text), ("timestamp", .str m.timestamp)]

/-- JSON encoding of a `DocumentItem`. -/
def encodeDocument (d : DocumentItem) : JValue :=
  .obj [("id", .str d.id), ("name", .str d.name), ("mimeType", .str d.mimeType),
        ("size", .num d.size), ("uploadedAt", .str d.uploadedAt),
        ("dataUrl", .str d.dataUrl)]

/-- JSON encoding of `AppSettings`. -/
def encodeSettings (s : AppSettings) : JValue :=
  .obj [("compactCards", .bool s.compactCards),
        ("showCompleted", .bool s.showCompleted),
        ("accent", .str (match s.accent with
          | .teal => "teal"
          | .blue => "blue"
          | .orange => "orange"))]

/-- JSON encoding of a whole `BoardState` (what `JSON.stringify` produces for
the `state` field of the persisted payload). -/
def encodeBoardState (st : BoardState) : JValue :=
  .obj [("tasks", .arr (st.tasks.map encodeTask)),
        ("activity", .arr (st.activity.map encodeActivity)),
        ("messages", .arr (st.messages.map encodeMessage)),
        ("documents", .arr (st.documents.map encodeDocument)),
        ("settings", encodeSettings st.settings)]

/-- `saveBoardState` from `src/lib/storage.ts`, as the serialized payload it
writes to both storage keys (`version: 2`, `updatedAt = new Date().toISOString()`
passed in as `upd`). -/
def saveBoardState (upd : String) (st : BoardState) : JValue :=
  .obj [("version", .num 2), ("updatedAt", .str upd),
        ("state", encodeBoardState st)]

/-- The activity update shared by every activity-producing case of
`boardReducer` (`src/app/board/page.tsx`, included in `src/README.md`):
`[makeActivity(...), ...state.activity].slice(0, ACTIVITY_LIMIT)` — prepend
the new entry, keep the first `ACTIVITY_LIMIT` entries.
`boardReducer_create_activity` below shows the `create` case is definitionally
this function. -/
def pushActivity (item : ActivityItem) (log : List ActivityItem) :
    List ActivityItem :=
  (item :: log).take ACTIVITY_LIMIT

/-- `makeActivity` from the board page: `crypto.randomUUID()` and
`new Date().toISOString()` are abstracted as the arguments `aid` and `ts`; no
claim relies on their values. -/
def makeActivity (aid ts : String) (action : ActivityAction)
    (taskTitle : String) (details : Option String) : ActivityItem :=
  { id := aid, action := action, taskTitle := taskTitle, timestamp := ts,
    details := details }

/-- `Partial<AppSettings>`, the payload of the `updateSettings` action;
`none` models an absent key of the partial object. -/
structure SettingsPatch where
  compactCards : Option Bool
  showCompleted : Option Bool
  accent : Option Accent
deriving DecidableEq

/-- The `BoardAction` union of the board page. -/
inductive BoardAction where
  | load (payload : BoardState)
  | create (payload : Task)
  | edit (payload : Task)
  | delete (id : String)
  | move (id : String) (status : TaskStatus)
  | toggleFavorite (id : String)
  | clearActivity
  | removeActivity (id : String)
  | addMessage (payload : ChatMessage)
  | addDocument (payload : DocumentItem)
  | removeDocument (id : String)
  | updateSettings (payload : SettingsPatch)
  | reset
deriving DecidableEq

/-- `status.toUpperCase()` on the three status strings. -/
def statusUpper : TaskStatus → String
  | .todo => "TODO"
  | .doing => "DOING"
  | .done => "DONE"

/-- `boardReducer` from `src/app/board/page.tsx` (embedded in
`src/README.md`).  Each dispatch draws one fresh activity id and timestamp
(`aid`, `ts`); `slice(0, ACTIVITY_LIMIT)` is `List.take`. -/
def boardReducer (aid ts : String) (state : BoardState) (action : BoardAction) :
    BoardState :=
  match action with
  | .load payload => payload
  | .create payload =>
    { state with
      tasks := payload :: state.tasks,
      activity := (makeActivity aid ts .created payload.title none ::
        state.activity).take ACTIVITY_LIMIT }
  | .edit payload =>
    { state with
      tasks := state.tasks.map fun task =>
        if task.id = payload.id then payload else task,
      activity := (makeActivity aid ts .edited payload.title none ::
        state.activity).take ACTIVITY_LIMIT }
  | .delete did =>
    { state with
      tasks := state.tasks.filter fun task => !(task.id == did),
      activity := match state.tasks.find? (fun task => task.id == did) with
        | some target =>
          (makeActivity aid ts .deleted target.title none ::
            state.activity).take ACTIVITY_LIMIT
        | none => state.activity }
  | .move mid mstatus =>
    match state.tasks.find? (fun task => task.id == mid) with
    | none => state
    | some current =>
      if current.status = mstatus then state
      else
        { state with
          tasks := moveTaskStatus state.tasks mid mstatus,
          activity := (makeActivity aid ts .moved current.title
            (some (statusUpper current.status ++ " -> " ++ statusUpper mstatus)) ::
            state.activity).take ACTIVITY_LIMIT }
  | .toggleFavorite fid =>
    match state.tasks.find? (fun task => task.id == fid) with
    | none => state
    | some current =>
      { state with
        tasks := state.tasks.map fun task =>
          if task.id = fid then { task with favorite := !current.favorite }
          else task,
        activity := (makeActivity aid ts .favorited current.title
          (some (if !current.favorite then "Added to favorites"
                 else "Removed from favorites")) ::
          state.activity).take ACTIVITY_LIMIT }
  | .clearActivity => { state with activity := [] }
  | .removeActivity rid =>
    { state with activity := state.activity.filter fun item => !(item.id == rid) }
  | .addMessage payload =>
    { state with
      messages := state.messages ++ [payload],
      activity := (makeActivity aid ts .message
        (if payload.sender = .me then "You" else "Teammate")
        (some payload.text) :: state.activity).take ACTIVITY_LIMIT }
  | .addDocument payload =>
    { state with
      documents := payload :: state.documents,
      activity := (makeActivity aid ts .document payload.name
        (some "Document uploaded") :: state.activity).take ACTIVITY_LIMIT }
  | .removeDocument rid =>
    { state with documents := state.documents.filter fun d => !(d.id == rid) }
  | .updateSettings payload =>
    { state with settings :=
      { compactCards := payload.compactCards.getD state.settings.compactCards,
        showCompleted := payload.showCompleted.getD state.settings.showCompleted,
        accent := payload.accent.getD state.settings.accent } }
  | .reset => { state with tasks := [], activity := [] }

/-- The predicate of the `filter` inside `filterAndSortTasks`, named for use in
proofs; `filterAndSortTasks_def` shows it is definitionally the inlined
closure. -/
def matchesFilters (searchTerm : String) (priority : PriorityFilter)
    (task : Task) : Bool :=
  let term := jsToLower (jsTrim searchTerm)
  (if term = "" then true else includesSub (jsToLower task.title) term) &&
  (match priority with
   | .all => true
   | .only p => task.priority == p)

/-- JS `null` test on a JSON value. -/
def isNull : JValue → Bool
  | .null => true
  | _ => false

/-- Payloads whose `tasks` field, when an array, has no `null` element (the
shape on which `sanitizeBoardState` cannot throw). -/
def noNullTaskElem (v : JValue) : Bool :=
  match v.getField "tasks" with
  | some (.arr xs) => xs.all fun x => !(isNull x)
  | _ => true

theorem filterAndSortTasks_def (gt : String → Int) (tasks : List Task)
    (s : String) (pf : PriorityFilter) (dir : SortDir) :
    filterAndSortTasks gt tasks s pf dir =
      (tasks.filter (matchesFilters s pf)).mergeSort
        (fun a b => decide (compareDueDates gt a b dir ≤ 0)) := rfl

theorem mergeSort_pair {α : Type} (le : α → α → Bool) (a b : α) :
    List.mergeSort [a, b] le = if le a b then [a, b] else [b, a] := by
  simp [List.mergeSort, List.merge]

/-- The comparator key order used in transitivity/totality arguments. -/
def cmpKey (dir : SortDir) (x y : Option Int × Int) : Int :=
  if x.1 = y.1 then x.2 - y.2 else
    match dir with
    | .asc => subSign x.1 y.1
    | .desc => subSign y.1 x.1

theorem compareDueDates_cmpKey (gt : String → Int) (a b : Task) (dir : SortDir) :
    compareDueDates gt a b dir =
      cmpKey dir (dueTime gt a, gt a.createdAt) (dueTime gt b, gt b.createdAt) := rfl

theorem cmpKey_trans (dir : SortDir) (x y z : Option Int × Int)
    (hxy : cmpKey dir x y ≤ 0) (hyz : cmpKey dir y z ≤ 0) : cmpKey dir x z ≤ 0 := by
  obtain ⟨x1, x2⟩ := x
  obtain ⟨y1, y2⟩ := y
  obtain ⟨z1, z2⟩ := z
  cases dir <;> cases x1 <;> cases y1 <;> cases z1 <;>
    simp [cmpKey, subSign] at * <;> (try split_ifs at * <;> omega) <;> omega

theorem cmpKey_neg (dir : SortDir) (x y : Option Int × Int) :
    cmpKey dir y x = -cmpKey dir x y := by
  obtain ⟨x1, x2⟩ := x
  obtain ⟨y1, y2⟩ := y
  cases dir <;> cases x1 <;> cases y1 <;>
    simp [cmpKey, subSign] at * <;> (try split_ifs at * <;> omega)

theorem taskLe_trans (gt : String → Int) (dir : SortDir) (a b c : Task)
    (hab : decide (compareDueDates gt a b dir ≤ 0) = true)
    (hbc : decide (compareDueDates gt b c dir ≤ 0) = true) :
    decide (compareDueDates gt a c dir ≤ 0) = true := by
  rw [decide_eq_true_eq] at *
  rw [compareDueDates_cmpKey] at *
  exact cmpKey_trans dir _ _ _ hab hbc

theorem taskLe_total (gt : String → Int) (dir : SortDir) (a b : Task) :
    (decide (compareDueDates gt a b dir ≤ 0) ||
     decide (compareDueDates gt b a dir ≤ 0)) = true := by
  rw [Bool.or_eq_true, decide_eq_true_eq, decide_eq_true_eq,
    compareDueDates_cmpKey, compareDueDates_cmpKey, cmpKey_neg]
  omega

/-- A concrete task with a due date, used for the C1 evidence. -/
def taskFeb18 : Task :=
  { id := "1", project := "General", title := "Write docs", description := "",
    priority := .high, dueDate := "2026-02-18", tags := [], status := .todo,
    createdAt := "2026-02-10T10:00:00.000Z", favorite := false }

/-- A concrete task without a due date, used for the C1 evidence. -/
def taskNoDue : Task :=
  { id := "2", project := "General", title := "Fix bug", description := "",
    priority := .medium, dueDate := "", tags := [], status := .doing,
    createdAt := "2026-02-09T10:00:00.000Z", favorite := false }

/-- C1: the claim says every task with a non-empty `dueDate` precedes every
task with an empty `dueDate` in the output of `filterAndSortTasks` under both
sort directions.  Evaluating the code at a two-task list in descending mode
shows the opposite: the comparator applies the direction to the
positive-infinity key of the empty due date, so the empty-due-date task comes
first.  This contradicts the repository README ("Sort by due date (empty due
dates always last)"), so the code, not the claim, is wrong. -/
theorem filterAndSortTasks_desc_empty_dueDate_first :
    filterAndSortTasks (fun _ => 0) [taskFeb18, taskNoDue] "" .all .desc =
      [taskNoDue, taskFeb18] ∧
    taskNoDue.dueDate = "" ∧ taskFeb18.dueDate ≠ "" := by
  have hf : List.filter (matchesFilters "" PriorityFilter.all)
      [taskFeb18, taskNoDue] = [taskFeb18, taskNoDue] := by decide
  refine ⟨?_, by decide, by decide⟩
  rw [filterAndSortTasks_def, hf, mergeSort_pair]
  decide

/-- C4: `moveTaskStatus` preserves the length and the index-wise content of
the list; at each index the result task agrees with the input task on every
field except `status`, which becomes the target exactly when the id matches. -/
theorem moveTaskStatus_frame (tasks : List Task) (taskId : String)
    (ns : TaskStatus) :
    (moveTaskStatus tasks taskId ns).length = tasks.length ∧
    ∀ (i : Nat) (t u : Task), tasks[i]? = some t →
      (moveTaskStatus tasks taskId ns)[i]? = some u →
      u.id = t.id ∧ u.project = t.project ∧ u.title = t.title ∧
      u.description = t.description ∧ u.priority = t.priority ∧
      u.dueDate = t.dueDate ∧ u.tags = t.tags ∧
      u.status = (if t.id = taskId then ns else t.status) ∧
      u.createdAt = t.createdAt ∧ u.favorite = t.favorite := by
  constructor
  · simp [moveTaskStatus]
  · intro i t u ht hu
    rw [moveTaskStatus, List.getElem?_map, ht] at hu
    injection hu with hu
    subst hu
    by_cases hid : t.id = taskId
    · simp [hid]
    · simp [hid]

/-- Closed witness for `moveTaskStatus_frame` at a concrete two-task list. -/
theorem moveTaskStatus_frame_witness :
    ([taskFeb18, taskNoDue][0]? = some taskFeb18) ∧
    ((moveTaskStatus [taskFeb18, taskNoDue] "1" .done)[0]? =
      some { taskFeb18 with status := .done }) ∧
    ({ taskFeb18 with status := TaskStatus.done }.id = taskFeb18.id ∧
     { taskFeb18 with status := TaskStatus.done }.project = taskFeb18.project ∧
     { taskFeb18 with status := TaskStatus.done }.title = taskFeb18.title ∧
     { taskFeb18 with status := TaskStatus.done }.description = taskFeb18.description ∧
     { taskFeb18 with status := TaskStatus.done }.priority = taskFeb18.priority ∧
     { taskFeb18 with status := TaskStatus.done }.dueDate = taskFeb18.dueDate ∧
     { taskFeb18 with status := TaskStatus.done }.tags = taskFeb18.tags ∧
     { taskFeb18 with status := TaskStatus.done }.status =
       (if taskFeb18.id = "1" then TaskStatus.done else taskFeb18.status) ∧
     { taskFeb18 with status := TaskStatus.done }.createdAt = taskFeb18.createdAt ∧
     { taskFeb18 with status := TaskStatus.done }.favorite = taskFeb18.favorite) :=
  ⟨by decide, by decide,
    (moveTaskStatus_frame [taskFeb18, taskNoDue] "1" .done).2 0 taskFeb18
      { taskFeb18 with status := .done } (by decide) (by decide)⟩

/-- C9: moving an id that matches no task is a no-op: the output list is
structurally equal to the input list. -/
theorem moveTaskStatus_noop (tasks : List Task) (taskId : String)
    (ns : TaskStatus) (h : ∀ t ∈ tasks, t.id ≠ taskId) :
    moveTaskStatus tasks taskId ns = tasks := by
  induction tasks with
  | nil => rfl
  | cons t ts ih =>
    have h1 : t.id ≠ taskId := h t (by simp)
    have h2 : moveTaskStatus ts taskId ns = ts :=
      ih fun x hx => h x (by simp [hx])
    simp only [moveTaskStatus, List.map_cons, if_neg h1] at *
    rw [h2]

/-- Closed witness for `moveTaskStatus_noop`: id "999" matches no task. -/
theorem moveTaskStatus_noop_witness :
    (∀ t ∈ [taskFeb18, taskNoDue], t.id ≠ "999") ∧
    moveTaskStatus [taskFeb18, taskNoDue] "999" .done = [taskFeb18, taskNoDue] :=
  ⟨by decide, moveTaskStatus_noop [taskFeb18, taskNoDue] "999" .done (by decide)⟩

/-- C10: `filterAndSortTasks` first trims the search term, so any two search
terms with the same trim (in particular a whitespace-only term and the empty
term, or a term with surrounding whitespace and its trimmed core) produce the
same output on every task list, priority filter and sort direction. -/
theorem filterAndSortTasks_trim_searchTerm (gt : String → Int)
    (tasks : List Task) (pf : PriorityFilter) (dir : SortDir) (s core : String)
    (h : jsTrim s = jsTrim core) :
    filterAndSortTasks gt tasks s pf dir =
      filterAndSortTasks gt tasks core pf dir := by
  unfold filterAndSortTasks
  rw [h]

/-- Closed witness for `filterAndSortTasks_trim_searchTerm`: a padded term
versus its core, and a whitespace-only term versus the empty term. -/
theorem filterAndSortTasks_trim_searchTerm_witness :
    (jsTrim "  fix " = jsTrim "fix") ∧
    filterAndSortTasks (fun _ => 0) [taskFeb18, taskNoDue] "  fix " .all .asc =
      filterAndSortTasks (fun _ => 0) [taskFeb18, taskNoDue] "fix" .all .asc :=
  ⟨by decide,
    filterAndSortTasks_trim_searchTerm (fun _ => 0) [taskFeb18, taskNoDue]
      .all .asc "  fix " "fix" (by decide)⟩

theorem includesSub_nil (hay : String) : includesSub hay "" = true := by
  simp [includesSub]

/-- C6: in the output of `filterAndSortTasks`, any two tasks whose due-date
keys compare equal under the comparator (including two empty due dates) appear
in `createdAt`-ascending order, for every sort direction — the tie-break
ignores the direction. -/
theorem filterAndSortTasks_tie_break_createdAt (gt : String → Int)
    (tasks : List Task) (s : String) (pf : PriorityFilter) (dir : SortDir)
    (i j : Nat) (x y : Task) (hij : i < j)
    (hx : (filterAndSortTasks gt tasks s pf dir)[i]? = some x)
    (hy : (filterAndSortTasks gt tasks s pf dir)[j]? = some y)
    (heq : dueTime gt x = dueTime gt y) :
    gt x.createdAt ≤ gt y.createdAt := by
  rw [filterAndSortTasks_def] at hx hy
  rw [List.getElem?_eq_some_iff] at hx hy
  obtain ⟨hi, hxe⟩ := hx
  obtain ⟨hj, hye⟩ := hy
  have hp := @List.sorted_mergeSort Task
    (fun a b => decide (compareDueDates gt a b dir ≤ 0))
    (taskLe_trans gt dir) (taskLe_total gt dir)
    (tasks.filter (matchesFilters s pf))
  rw [List.pairwise_iff_getElem] at hp
  have hle := hp i j hi hj hij
  rw [hxe, hye, decide_eq_true_eq, compareDueDates_cmpKey] at hle
  simp [cmpKey, heq] at hle
  omega

/-- Closed witness for `filterAndSortTasks_tie_break_createdAt`: two tasks
with empty due dates, the earlier-created listed second in the input. -/
theorem filterAndSortTasks_tie_break_createdAt_witness :
    (0 : Nat) < 1 ∧
    (filterAndSortTasks (fun s => if s = "2026-02-09T10:00:00.000Z" then 9 else 10)
        [{ taskNoDue with id := "a", createdAt := "2026-02-10T10:00:00.000Z" },
         { taskNoDue with id := "b", createdAt := "2026-02-09T10:00:00.000Z" }]
        "" .all .desc)[0]? =
      some { taskNoDue with id := "b", createdAt := "2026-02-09T10:00:00.000Z" } ∧
    (if ("2026-02-09T10:00:00.000Z" : String) = "2026-02-09T10:00:00.000Z"
        then (9 : Int) else 10) ≤
      (if ("2026-02-10T10:00:00.000Z" : String) = "2026-02-09T10:00:00.000Z"
        then (9 : Int) else 10) := by
  have gt0 : String → Int := fun s => if s = "2026-02-09T10:00:00.000Z" then 9 else 10
  refine ⟨by decide, ?_, ?_⟩
  · rw [filterAndSortTasks_def]
    rw [show List.filter
        (matchesFilters "" .all)
        [{ taskNoDue with id := "a", createdAt := "2026-02-10T10:00:00.000Z" },
         { taskNoDue with id := "b", createdAt := "2026-02-09T10:00:00.000Z" }] =
        [{ taskNoDue with id := "a", createdAt := "2026-02-10T10:00:00.000Z" },
         { taskNoDue with id := "b", createdAt := "2026-02-09T10:00:00.000Z" }]
      from by decide]
    rw [mergeSort_pair]
    decide
  · exact filterAndSortTasks_tie_break_createdAt
      (fun s => if s = "2026-02-09T10:00:00.000Z" then 9 else 10)
      [{ taskNoDue with id := "a", createdAt := "2026-02-10T10:00:00.000Z" },
       { taskNoDue with id := "b", createdAt := "2026-02-09T10:00:00.000Z" }]
      "" .all .desc 0 1
      { taskNoDue with id := "b", createdAt := "2026-02-09T10:00:00.000Z" }
      { taskNoDue with id := "a", createdAt := "2026-02-10T10:00:00.000Z" }
      (by decide)
      (by rw [filterAndSortTasks_def,
            show List.filter
              (matchesFilters "" .all)
              [{ taskNoDue with id := "a", createdAt := "2026-02-10T10:00:00.000Z" },
               { taskNoDue with id := "b", createdAt := "2026-02-09T10:00:00.000Z" }] =
              [{ taskNoDue with id := "a", createdAt := "2026-02-10T10:00:00.000Z" },
               { taskNoDue with id := "b", createdAt := "2026-02-09T10:00:00.000Z" }]
            from by decide, mergeSort_pair]
          decide)
      (by rw [filterAndSortTasks_def,
            show List.filter
              (matchesFilters "" .all)
              [{ taskNoDue with id := "a", createdAt := "2026-02-10T10:00:00.000Z" },
               { taskNoDue with id := "b", createdAt := "2026-02-09T10:00:00.000Z" }] =
              [{ taskNoDue with id := "a", createdAt := "2026-02-10T10:00:00.000Z" },
               { taskNoDue with id := "b", createdAt := "2026-02-09T10:00:00.000Z" }]
            from by decide, mergeSort_pair]
          decide)
      (by decide)

/-- A concrete task whose title is "cat", used for the C7 counterexample. -/
def taskCat : Task :=
  { id := "3", project := "General", title := "cat", description := "",
    priority := .low, dueDate := "", tags := [], status := .todo,
    createdAt := "2026-02-08T10:00:00.000Z", favorite := false }

/-- C7 as stated is false: with the search term " a " (surrounded by
whitespace) the task titled "cat" appears in the output — the code matches the
trimmed term "a" — although its title does not contain " a " as a
case-insensitive substring, so the claimed "iff" fails at this input. -/
theorem filterAndSortTasks_search_counterexample :
    taskCat ∈ filterAndSortTasks (fun _ => 0) [taskCat] " a " .all .asc ∧
    includesSub (jsToLower taskCat.title) (jsToLower " a ") = false := by
  constructor
  · rw [filterAndSortTasks_def]
    rw [show List.filter (matchesFilters " a " .all) [taskCat] = [taskCat]
      from by decide]
    rw [List.mergeSort_singleton]
    decide
  · decide

theorem matchesFilters_eq_true_iff (s : String) (pf : PriorityFilter) (t : Task) :
    matchesFilters s pf t = true ↔
      (includesSub (jsToLower t.title) (jsToLower (jsTrim s)) = true ∧
       (pf = PriorityFilter.all ∨ pf = PriorityFilter.only t.priority)) := by
  unfold matchesFilters
  rw [Bool.and_eq_true]
  constructor
  · rintro ⟨hterm, hpf⟩
    constructor
    · by_cases h : jsToLower (jsTrim s) = ""
      · rw [h, includesSub_nil]
      · rwa [if_neg h] at hterm
    · cases pf with
      | all => exact Or.inl rfl
      | only p =>
        right
        simp only [beq_iff_eq] at hpf
        rw [hpf]
  · rintro ⟨hinc, hpf⟩
    constructor
    · by_cases h : jsToLower (jsTrim s) = ""
      · rw [if_pos h]
      · rwa [if_neg h]
    · cases pf with
      | all => rfl
      | only p =>
        rcases hpf with h | h
        · exact absurd h (by simp)
        · injection h with hp
          simp only [beq_iff_eq, hp]

/-- C7 amended: a task of the input list appears in the output of
`filterAndSortTasks` iff its lowercased title contains the lowercased
*trimmed* search term and the priority filter is "all" or equals the task
priority exactly. -/
theorem filterAndSortTasks_mem_iff (gt : String → Int) (tasks : List Task)
    (s : String) (pf : PriorityFilter) (dir : SortDir) (t : Task)
    (ht : t ∈ tasks) :
    t ∈ filterAndSortTasks gt tasks s pf dir ↔
      includesSub (jsToLower t.title) (jsToLower (jsTrim s)) = true ∧
      (pf = PriorityFilter.all ∨ pf = PriorityFilter.only t.priority) := by
  rw [filterAndSortTasks_def, List.mem_mergeSort, List.mem_filter,
    matchesFilters_eq_true_iff]
  simp [ht]

/-- Closed witness for `filterAndSortTasks_mem_iff` at a concrete input. -/
theorem filterAndSortTasks_mem_iff_witness :
    taskCat ∈ [taskCat] ∧
    (taskCat ∈ filterAndSortTasks (fun _ => 0) [taskCat] "CAT" .all .asc ↔
      includesSub (jsToLower taskCat.title) (jsToLower (jsTrim "CAT")) = true ∧
      (PriorityFilter.all = PriorityFilter.all ∨
       PriorityFilter.all = PriorityFilter.only taskCat.priority)) :=
  ⟨by decide,
    filterAndSortTasks_mem_iff (fun _ => 0) [taskCat] "CAT" .all .asc taskCat
      (by decide)⟩

theorem decodeStr_map_str (xs : List String) :
    (xs.map JValue.str).filterMap
      (fun x => match x with
        | JValue.str s => some s
        | _ => none) = xs := by
  induction xs with
  | nil => rfl
  | cons a as ih => simp [ih]

theorem sanitizeTask_encodeTask (fid now : String) (t : Task)
    (h : jsTrim t.project ≠ "") :
    sanitizeTask fid now (encodeTask t) = .ok t := by
  obtain ⟨tid, tproj, ttitle, tdesc, tprio, tdue, ttags, tstat, tcrea, tfav⟩ := t
  cases tprio <;> cases tstat <;>
    simp [sanitizeTask, encodeTask, encodePriority, encodeStatus,
      JValue.getField, List.lookup, normalizePriority, normalizeStatus,
      decodeStr_map_str, h] <;>
    (clear h
     induction ttags with
     | nil => rfl
     | cons a as ih => simp [ih])

theorem sanitizeTasks_encode (fid now : String) (ts : List Task)
    (h : ∀ t ∈ ts, jsTrim t.project ≠ "") :
    sanitizeTasks fid now (ts.map encodeTask) = .ok ts := by
  induction ts with
  | nil => rfl
  | cons t rest ih =>
    simp only [List.map_cons, sanitizeTasks]
    rw [sanitizeTask_encodeTask fid now t (h t (by simp)),
      ih fun x hx => h x (by simp [hx])]

theorem asActivity_encodeActivity (a : ActivityItem) :
    asActivity (encodeActivity a) = some a := by
  obtain ⟨i, act, tt, ts, det⟩ := a
  cases act <;> cases det <;>
    simp [asActivity, encodeActivity, encodeAction, JValue.getField, List.lookup]

theorem asMessage_encodeMessage (m : ChatMessage) :
    asMessage (encodeMessage m) = some m := by
  obtain ⟨i, snd, tx, ts⟩ := m
  cases snd <;> simp [asMessage, encodeMessage, JValue.getField, List.lookup]

theorem asDocument_encodeDocument (d : DocumentItem) :
    asDocument (encodeDocument d) = some d := by
  obtain ⟨i, nm, mt, sz, up, du⟩ := d
  simp [asDocument, encodeDocument, JValue.getField, List.lookup]

theorem sanitizeSettings_encodeSettings (s : AppSettings) :
    sanitizeSettings (some (encodeSettings s)) = s := by
  obtain ⟨c, sh, ac⟩ := s
  cases ac <;>
    simp [sanitizeSettings, encodeSettings, JValue.getField, List.lookup,
      JValue.isObjectLike]

theorem filterMap_map_decode {α : Type} (f : α → JValue) (g : JValue → Option α)
    (hfg : ∀ x, g (f x) = some x) (l : List α) :
    (l.map f).filterMap g = l := by
  induction l with
  | nil => rfl
  | cons a as ih => simp [hfg, ih]

/-- C5: serializing a valid `BoardState` (every stored task has a non-blank
project, the validity condition the data model imposes) and sanitizing the
deserialized result gives back the very same state; moreover the whole
`saveBoardState` payload parses back to version 2, the saved timestamp and the
unchanged state. -/
theorem sanitize_serialize_round_trip (fid now upd : String) (st : BoardState)
    (h : ∀ t ∈ st.tasks, jsTrim t.project ≠ "") :
    sanitizeBoardState fid now (encodeBoardState st) = .ok st ∧
    parsePersistedBoard fid now (some (saveBoardState upd st)) =
      some ⟨2, upd, st⟩ := by
  obtain ⟨tasks, activity, messages, documents, settings⟩ := st
  have htasks : sanitizeTasks fid now (tasks.map encodeTask) = .ok tasks :=
    sanitizeTasks_encode fid now tasks h
  have hsan : sanitizeBoardState fid now
      (encodeBoardState ⟨tasks, activity, messages, documents, settings⟩) =
      .ok ⟨tasks, activity, messages, documents, settings⟩ := by
    simp [sanitizeBoardState, encodeBoardState, JValue.getField,
      JValue.isObjectLike, List.lookup, sanitizeActivity, sanitizeMessages,
      sanitizeDocuments, htasks,
      filterMap_map_decode encodeActivity asActivity asActivity_encodeActivity,
      filterMap_map_decode encodeMessage asMessage asMessage_encodeMessage,
      filterMap_map_decode encodeDocument asDocument asDocument_encodeDocument,
      sanitizeSettings_encodeSettings]
  refine ⟨hsan, ?_⟩
  simp [parsePersistedBoard, saveBoardState, JValue.getField,
    JValue.isObjectLike, List.lookup, hsan, Except.map, Except.toOption]

/-- A one-task state used by the C5 witness. -/
def oneTaskState : BoardState :=
  { tasks := [taskFeb18], activity := [], messages := [],
    documents := [], settings := defaultSettings }

/-- Closed witness for `sanitize_serialize_round_trip` at a one-task state. -/
theorem sanitize_serialize_round_trip_witness :
    (∀ t ∈ oneTaskState.tasks, jsTrim t.project ≠ "") ∧
    sanitizeBoardState "f" "n" (encodeBoardState oneTaskState) =
      .ok oneTaskState ∧
    parsePersistedBoard "f" "n"
      (some (saveBoardState "2026-02-20T00:00:00.000Z" oneTaskState)) =
      some ⟨2, "2026-02-20T00:00:00.000Z", oneTaskState⟩ := by
  refine ⟨by decide, ?_⟩
  exact sanitize_serialize_round_trip "f" "n" "2026-02-20T00:00:00.000Z"
    oneTaskState (by decide)

theorem loadBoardState_two (gt : String → Int) (fid now : String)
    (mraw braw : Option JValue) (pm pb : PersistedBoardPayload)
    (hm : parsePersistedBoard fid now mraw = some pm)
    (hb : parsePersistedBoard fid now braw = some pb) :
    loadBoardState gt fid now mraw braw =
      if (if pb.state.tasks.length = pm.state.tasks.length then
            gt pb.updatedAt - gt pm.updatedAt
          else ((pb.state.tasks.length : Int) - pm.state.tasks.length)) ≤ 0
      then pm.state else pb.state := by
  simp only [loadBoardState, hm, hb]
  rw [show List.filterMap id [some pm, some pb] = [pm, pb] from rfl]
  rw [mergeSort_pair]
  by_cases hle : (if pb.state.tasks.length = pm.state.tasks.length then
      gt pb.updatedAt - gt pm.updatedAt
    else ((pb.state.tasks.length : Int) - pm.state.tasks.length)) ≤ 0
  · simp [hle]
  · simp [hle]

/-- C8: when both the primary and the backup slot parse, `loadBoardState`
returns the state with strictly more tasks, and on equal task counts the one
with the strictly more recent `updatedAt` timestamp. -/
theorem loadBoardState_prefers_more_tasks (gt : String → Int) (fid now : String)
    (mraw braw : Option JValue) (pm pb : PersistedBoardPayload)
    (hm : parsePersistedBoard fid now mraw = some pm)
    (hb : parsePersistedBoard fid now braw = some pb) :
    (pb.state.tasks.length < pm.state.tasks.length →
      loadBoardState gt fid now mraw braw = pm.state) ∧
    (pm.state.tasks.length < pb.state.tasks.length →
      loadBoardState gt fid now mraw braw = pb.state) ∧
    (pm.state.tasks.length = pb.state.tasks.length →
      (gt pb.updatedAt < gt pm.updatedAt →
        loadBoardState gt fid now mraw braw = pm.state) ∧
      (gt pm.updatedAt < gt pb.updatedAt →
        loadBoardState gt fid now mraw braw = pb.state)) := by
  rw [loadBoardState_two gt fid now mraw braw pm pb hm hb]
  refine ⟨?_, ?_, ?_⟩
  · intro h
    have hne : ¬ pb.state.tasks.length = pm.state.tasks.length := by omega
    have hC : (if pb.state.tasks.length = pm.state.tasks.length then
        gt pb.updatedAt - gt pm.updatedAt
      else ((pb.state.tasks.length : Int) - pm.state.tasks.length)) ≤ 0 := by
      rw [if_neg hne]
      omega
    rw [if_pos hC]
  · intro h
    have hne : ¬ pb.state.tasks.length = pm.state.tasks.length := by omega
    have hC : ¬ (if pb.state.tasks.length = pm.state.tasks.length then
        gt pb.updatedAt - gt pm.updatedAt
      else ((pb.state.tasks.length : Int) - pm.state.tasks.length)) ≤ 0 := by
      rw [if_neg hne]
      omega
    rw [if_neg hC]
  · intro h
    have hne : pb.state.tasks.length = pm.state.tasks.length := by omega
    constructor
    · intro hu
      have hC : (if pb.state.tasks.length = pm.state.tasks.length then
          gt pb.updatedAt - gt pm.updatedAt
        else ((pb.state.tasks.length : Int) - pm.state.tasks.length)) ≤ 0 := by
        rw [if_pos hne]
        omega
      rw [if_pos hC]
    · intro hu
      have hC : ¬ (if pb.state.tasks.length = pm.state.tasks.length then
          gt pb.updatedAt - gt pm.updatedAt
        else ((pb.state.tasks.length : Int) - pm.state.tasks.length)) ≤ 0 := by
        rw [if_pos hne]
        omega
      rw [if_neg hC]

/-- The default task produced by sanitizing `{}` with fresh id "f" at time
"n"; used in load/sanitize witnesses. -/
def defaultTaskW : Task :=
  { id := "f", project := "General", title := "Untitled Task", description := "",
    priority := .medium, dueDate := "", tags := [], status := .todo,
    createdAt := "n", favorite := false }

/-- Concrete primary slot for the C8 witness: a payload with zero tasks. -/
def mainRawW : Option JValue := some (.obj [("state", .obj [])])

/-- Concrete backup slot for the C8 witness: a payload with one task. -/
def backupRawW : Option JValue :=
  some (.obj [("state", .obj [("tasks", .arr [.obj []])])])

/-- The backup payload parsed from `backupRawW`. -/
def pbW : PersistedBoardPayload :=
  ⟨1, epochIso,
    { tasks := [defaultTaskW], activity := [], messages := [],
      documents := [], settings := defaultSettings }⟩

/-- Closed witness for `loadBoardState_prefers_more_tasks`: the backup slot
holds one task, the primary zero, so the backup state is loaded. -/
theorem loadBoardState_prefers_more_tasks_witness :
    parsePersistedBoard "f" "n" mainRawW = some ⟨1, epochIso, emptyBoardState⟩ ∧
    parsePersistedBoard "f" "n" backupRawW = some pbW ∧
    emptyBoardState.tasks.length < pbW.state.tasks.length ∧
    loadBoardState (fun _ => 0) "f" "n" mainRawW backupRawW = pbW.state :=
  ⟨by decide, by decide, by decide,
    (loadBoardState_prefers_more_tasks (fun _ => 0) "f" "n" mainRawW backupRawW
      ⟨1, epochIso, emptyBoardState⟩ pbW (by decide) (by decide)).2.1 (by decide)⟩

/-- A well-shaped raw activity entry used in the C3 counterexample. -/
def actJ : JValue :=
  .obj [("id", .str "x"), ("action", .str "created"),
        ("taskTitle", .str "T"), ("timestamp", .str "ts")]

/-- The decoded form of `actJ`. -/
def actItemW : ActivityItem :=
  { id := "x", action := .created, taskTitle := "T", timestamp := "ts",
    details := none }

/-- C3 counterexample: the claim says every state produced by loading a
persisted payload has an activity log of length at most `ACTIVITY_LIMIT`.
`sanitizeActivity` only drops malformed entries and never truncates, so a
payload with 21 well-shaped activity entries loads to a state whose activity
log has 21 entries, exceeding the cap of 20. -/
theorem loadBoardState_activity_exceeds_cap :
    (loadBoardState (fun _ => 0) "f" "n"
        (some (.obj [("state",
          .obj [("activity", .arr (List.replicate 21 actJ))])]))
        none).activity.length = 21 ∧
    ¬ (21 ≤ ACTIVITY_LIMIT) := by
  constructor
  · simp only [loadBoardState,
      show parsePersistedBoard "f" "n"
          (some (.obj [("state",
            .obj [("activity", .arr (List.replicate 21 actJ))])])) =
        some ⟨1, epochIso,
          { tasks := [], activity := List.replicate 21 actItemW,
            messages := [], documents := [],
            settings := defaultSettings }⟩ from by decide,
      show parsePersistedBoard "f" "n" none = none from rfl]
    rw [show List.filterMap id
        [some (⟨1, epochIso,
          { tasks := [], activity := List.replicate 21 actItemW,
            messages := [], documents := [],
            settings := defaultSettings }⟩ : PersistedBoardPayload), none] =
      [⟨1, epochIso,
        { tasks := [], activity := List.replicate 21 actItemW,
          messages := [], documents := [],
          settings := defaultSettings }⟩] from rfl]
    rw [List.mergeSort_singleton]
    decide
  · decide

theorem take_append_take {α : Type} (xs ys : List α) (n : Nat) :
    (xs ++ ys.take n).take n = (xs ++ ys).take n := by
  rw [List.take_append_eq_append_take, List.take_append_eq_append_take,
    List.take_take]
  have : min (n - xs.length) n = n - xs.length := by omega
  rw [this]

theorem foldl_pushActivity (items : List ActivityItem) (l : List ActivityItem)
    (hl : l.length ≤ ACTIVITY_LIMIT) :
    items.foldl (fun log it => pushActivity it log) l =
      (items.reverse ++ l).take ACTIVITY_LIMIT := by
  induction items generalizing l with
  | nil => simp [List.take_of_length_le hl]
  | cons i its ih =>
    rw [List.foldl_cons,
      ih (pushActivity i l) (by simp [pushActivity, ACTIVITY_LIMIT]),
      List.reverse_cons, List.append_assoc]
    show (its.reverse ++ (i :: l).take ACTIVITY_LIMIT).take ACTIVITY_LIMIT = _
    rw [take_append_take]
    rfl

theorem boardReducer_create_activity (aid ts : String) (st : BoardState)
    (t : Task) :
    (boardReducer aid ts st (.create t)).activity =
      pushActivity (makeActivity aid ts .created t.title none) st.activity := rfl

theorem create_fold_activity (items : List (String × String × Task))
    (st : BoardState) :
    (items.foldl (fun s x => boardReducer x.1 x.2.1 s (.create x.2.2)) st).activity =
      (items.map fun x => makeActivity x.1 x.2.1 .created x.2.2.title none).foldl
        (fun log it => pushActivity it log) st.activity := by
  induction items generalizing st with
  | nil => rfl
  | cons x xs ih =>
    rw [List.foldl_cons, List.map_cons, List.foldl_cons, ih,
      boardReducer_create_activity]

/-- C3 amended: every `boardReducer` action other than `load` keeps the
activity log within `ACTIVITY_LIMIT` (the activity-producing cases prepend
the new entry and `slice(0, ACTIVITY_LIMIT)`, the rest shrink or preserve
the log), and after `ACTIVITY_LIMIT + 1` creations starting from an empty
log the result is the last `ACTIVITY_LIMIT` created entries newest-first —
the first (oldest) entry has been evicted.  Loading a persisted payload,
however, does not enforce the cap (see the counterexample): `load` replaces
the state with the sanitized payload and `sanitizeActivity` never
truncates. -/
theorem boardReducer_activity_cap_and_eviction :
    (∀ (aid ts : String) (state : BoardState) (action : BoardAction),
      (∀ p, action ≠ BoardAction.load p) →
      state.activity.length ≤ ACTIVITY_LIMIT →
      (boardReducer aid ts state action).activity.length ≤ ACTIVITY_LIMIT) ∧
    (∀ (items : List (String × String × Task)) (s0 : BoardState),
      s0.activity = [] → items.length = ACTIVITY_LIMIT + 1 →
      (items.foldl (fun s x =>
        boardReducer x.1 x.2.1 s (BoardAction.create x.2.2)) s0).activity =
        ((items.map fun x =>
          makeActivity x.1 x.2.1 .created x.2.2.title none).reverse).take
          ACTIVITY_LIMIT) := by
  constructor
  · intro aid ts state action hload hlen
    have htake : ∀ (l : List ActivityItem),
        (l.take ACTIVITY_LIMIT).length ≤ ACTIVITY_LIMIT :=
      fun l => by simp [List.length_take]
    cases action with
    | load p => exact absurd rfl (hload p)
    | create p => exact htake _
    | edit p => exact htake _
    | delete did =>
      cases hfind : state.tasks.find? (fun task => task.id == did) with
      | some target =>
        simp only [boardReducer, hfind]
        exact htake _
      | none =>
        simp only [boardReducer, hfind]
        exact hlen
    | move mid mstatus =>
      cases hfind : state.tasks.find? (fun task => task.id == mid) with
      | none =>
        simp only [boardReducer, hfind]
        exact hlen
      | some current =>
        by_cases hst : current.status = mstatus
        · simp only [boardReducer, hfind, if_pos hst]
          exact hlen
        · simp only [boardReducer, hfind, if_neg hst]
          exact htake _
    | toggleFavorite fid =>
      cases hfind : state.tasks.find? (fun task => task.id == fid) with
      | none =>
        simp only [boardReducer, hfind]
        exact hlen
      | some current =>
        simp only [boardReducer, hfind]
        exact htake _
    | clearActivity => simp [boardReducer]
    | removeActivity rid =>
      simp only [boardReducer]
      exact le_trans (List.length_filter_le _ _) hlen
    | addMessage p => exact htake _
    | addDocument p => exact htake _
    | removeDocument rid => exact hlen
    | updateSettings p => exact hlen
    | reset => simp [boardReducer]
  · intro items s0 hs0 hlen
    rw [create_fold_activity, hs0, foldl_pushActivity _ [] (by simp),
      List.append_nil]

/-- Closed witness for `boardReducer_activity_cap_and_eviction`: one `create`
dispatch on the empty state stays within the cap, and 21 `create` dispatches
keep only the newest 20 entries. -/
theorem boardReducer_activity_cap_and_eviction_witness :
    (∀ p, BoardAction.create taskFeb18 ≠ BoardAction.load p) ∧
    emptyBoardState.activity.length ≤ ACTIVITY_LIMIT ∧
    (boardReducer "a1" "t1" emptyBoardState
      (.create taskFeb18)).activity.length ≤ ACTIVITY_LIMIT ∧
    (List.replicate (ACTIVITY_LIMIT + 1) ("a1", "t1", taskFeb18)).length =
      ACTIVITY_LIMIT + 1 ∧
    ((List.replicate (ACTIVITY_LIMIT + 1) ("a1", "t1", taskFeb18)).foldl
        (fun s x => boardReducer x.1 x.2.1 s (BoardAction.create x.2.2))
        emptyBoardState).activity =
      (((List.replicate (ACTIVITY_LIMIT + 1) ("a1", "t1", taskFeb18)).map
        fun x => makeActivity x.1 x.2.1 .created x.2.2.title none).reverse).take
        ACTIVITY_LIMIT :=
  ⟨fun p => by simp, by decide,
    boardReducer_activity_cap_and_eviction.1 "a1" "t1" emptyBoardState
      (.create taskFeb18) (fun p => by simp) (by decide),
    by decide,
    boardReducer_activity_cap_and_eviction.2
      (List.replicate (ACTIVITY_LIMIT + 1) ("a1", "t1", taskFeb18))
      emptyBoardState rfl (by decide)⟩

/-- A well-shaped raw chat message used in the C2 counterexample. -/
def msgJ : JValue :=
  .obj [("id", .str "m1"), ("text", .str "hi"), ("timestamp", .str "t1"),
        ("sender", .str "me")]

/-- A payload whose `tasks` array holds a `null` element next to a valid
message. -/
def badPayload : JValue :=
  .obj [("tasks", .arr [.null]), ("messages", .arr [msgJ])]

/-- C2 counterexample: the claim says every persisted payload is sanitized
without throwing, with failing elements dropped and scalars defaulted.  A
`null` element of the `tasks` array instead makes `sanitizeTask` read a
property of `null`, which throws; the `TypeError` is only caught at the
payload level, so the whole payload — including its well-shaped message, which
the claim says would be kept — is discarded and loading falls back to the
empty state. -/
theorem sanitize_throws_on_null_task :
    (sanitizeBoardState "f" "n" badPayload).isOk = false ∧
    asMessage msgJ =
      some { id := "m1", sender := .me, text := "hi", timestamp := "t1" } ∧
    loadBoardState (fun _ => 0) "f" "n" (some (.obj [("state", badPayload)]))
      none = emptyBoardState := by
  refine ⟨by decide, by decide, ?_⟩
  simp only [loadBoardState,
    show parsePersistedBoard "f" "n" (some (.obj [("state", badPayload)])) =
      none from by decide,
    show parsePersistedBoard "f" "n" none = none from rfl]
  rfl

theorem sanitizeTask_ok_of_not_null (fid now : String) (x : JValue)
    (h : isNull x = false) : ∃ t, sanitizeTask fid now x = .ok t := by
  cases x <;> first
    | exact absurd h (by decide)
    | exact ⟨_, rfl⟩

theorem sanitizeTasks_ok_of_no_null (fid now : String) (xs : List JValue)
    (h : ∀ x ∈ xs, isNull x = false) :
    ∃ ts, sanitizeTasks fid now xs = .ok ts ∧ ts.length = xs.length := by
  induction xs with
  | nil => exact ⟨[], rfl, rfl⟩
  | cons x rest ih =>
    obtain ⟨t, hx⟩ := sanitizeTask_ok_of_not_null fid now x (h x (by simp))
    obtain ⟨ts, hts, hlen⟩ := ih fun y hy => h y (by simp [hy])
    refine ⟨t :: ts, ?_, by simp [hlen]⟩
    simp only [sanitizeTasks, hx, hts]

theorem getField_none_of_not_objectLike (v : JValue)
    (h : v.isObjectLike = false) (k : String) : v.getField k = none := by
  cases v <;> simp [JValue.getField, JValue.isObjectLike] at h ⊢

theorem sanitizeActivity_mem_source (xs : List JValue) :
    ∀ a ∈ sanitizeActivity (some (.arr xs)), ∃ x ∈ xs, asActivity x = some a :=
  fun _ ha => List.mem_filterMap.mp ha

theorem sanitizeMessages_mem_source (xs : List JValue) :
    ∀ m ∈ sanitizeMessages (some (.arr xs)), ∃ x ∈ xs, asMessage x = some m :=
  fun _ hm => List.mem_filterMap.mp hm

theorem sanitizeDocuments_mem_source (xs : List JValue) :
    ∀ d ∈ sanitizeDocuments (some (.arr xs)), ∃ x ∈ xs, asDocument x = some d :=
  fun _ hd => List.mem_filterMap.mp hd

/-- C2 amended: for every payload whose `tasks` field, when it is an array,
contains no `null` element, sanitization succeeds without throwing; task
elements are never dropped but sanitized field-by-field (the output has
exactly one task per input element), while activity/message/document elements
failing the shape check are dropped, never defaulted (every surviving entry
decodes from some input element); a task object missing every field gets the
documented defaults.  A `null` task element instead aborts the whole payload
(see the counterexample). -/
theorem sanitizeBoardState_total_and_drops (fid now : String) (v : JValue)
    (h : noNullTaskElem v = true) :
    (∃ st, sanitizeBoardState fid now v = .ok st ∧
      (∀ xs, v.getField "tasks" = some (.arr xs) →
        st.tasks.length = xs.length) ∧
      (∀ xs, v.getField "activity" = some (.arr xs) →
        ∀ a ∈ st.activity, ∃ x ∈ xs, asActivity x = some a) ∧
      (∀ xs, v.getField "messages" = some (.arr xs) →
        ∀ m ∈ st.messages, ∃ x ∈ xs, asMessage x = some m) ∧
      (∀ xs, v.getField "documents" = some (.arr xs) →
        ∀ d ∈ st.documents, ∃ x ∈ xs, asDocument x = some d)) ∧
    sanitizeTask fid now (.obj []) =
      .ok { id := fid, project := "General", title := "Untitled Task",
            description := "", priority := .medium, dueDate := "", tags := [],
            status := .todo, createdAt := now, favorite := false } := by
  refine ⟨?_, rfl⟩
  have key : ∃ ts, sanitizeBoardState fid now v = .ok
      { tasks := ts,
        activity := sanitizeActivity (v.getField "activity"),
        messages := sanitizeMessages (v.getField "messages"),
        documents := sanitizeDocuments (v.getField "documents"),
        settings := sanitizeSettings (v.getField "settings") } ∧
      (∀ xs, v.getField "tasks" = some (.arr xs) → ts.length = xs.length) := by
    by_cases hobj : v.isObjectLike
    case neg =>
      rw [Bool.not_eq_true] at hobj
      refine ⟨[], ?_, ?_⟩
      · unfold sanitizeBoardState
        rw [if_neg (by rw [hobj]; exact Bool.false_ne_true)]
        simp [getField_none_of_not_objectLike v hobj, emptyBoardState,
          sanitizeActivity, sanitizeMessages, sanitizeDocuments,
          sanitizeSettings]
      · intro xs hxs
        rw [getField_none_of_not_objectLike v hobj] at hxs
        exact absurd hxs (by simp)
    case pos =>
      rcases hvt : v.getField "tasks" with - | w
      · refine ⟨[], ?_, ?_⟩
        · unfold sanitizeBoardState
          rw [if_pos hobj, hvt]
        · intro xs hxs
          exact absurd hxs (by simp)
      · cases w
        case arr ys =>
          have hnn : ∀ x ∈ ys, isNull x = false := by
            unfold noNullTaskElem at h
            rw [hvt] at h
            intro x hx
            have := (List.all_eq_true.mp h) x hx
            simpa using this
          obtain ⟨ts, hts, hlen⟩ := sanitizeTasks_ok_of_no_null fid now ys hnn
          refine ⟨ts, ?_, ?_⟩
          · unfold sanitizeBoardState
            rw [if_pos hobj, hvt]
            simp [hts]
          · intro xs hxs
            have hys : ys = xs := JValue.arr.inj (Option.some.inj hxs)
            rw [← hys]
            exact hlen
        all_goals
          refine ⟨[], ?_, ?_⟩
          · unfold sanitizeBoardState
            rw [if_pos hobj, hvt]
          · intro xs hxs
            exact absurd hxs (by simp)
  obtain ⟨ts, hser, hlen⟩ := key
  refine ⟨_, hser, ?_, ?_, ?_, ?_⟩
  · exact hlen
  · intro xs hxs a ha
    have hb : a ∈ sanitizeActivity (v.getField "activity") := ha
    rw [hxs] at hb
    exact sanitizeActivity_mem_source xs a hb
  · intro xs hxs m hm
    have hb : m ∈ sanitizeMessages (v.getField "messages") := hm
    rw [hxs] at hb
    exact sanitizeMessages_mem_source xs m hb
  · intro xs hxs d hd
    have hb : d ∈ sanitizeDocuments (v.getField "documents") := hd
    rw [hxs] at hb
    exact sanitizeDocuments_mem_source xs d hb

/-- Closed witness for `sanitizeBoardState_total_and_drops`: a payload with a
non-null malformed task element, a malformed activity element next to a valid
one, and a missing settings object. -/
theorem sanitizeBoardState_total_and_drops_witness :
    noNullTaskElem (JValue.obj [("tasks", .arr [.num 7]),
      ("activity", .arr [.str "junk", actJ])]) = true ∧
    (∃ st, sanitizeBoardState "f" "n"
        (JValue.obj [("tasks", .arr [.num 7]),
          ("activity", .arr [.str "junk", actJ])]) = .ok st ∧
      (∀ xs, (JValue.obj [("tasks", .arr [.num 7]),
          ("activity", .arr [.str "junk", actJ])]).getField "tasks" =
          some (.arr xs) → st.tasks.length = xs.length) ∧
      (∀ xs, (JValue.obj [("tasks", .arr [.num 7]),
          ("activity", .arr [.str "junk", actJ])]).getField "activity" =
          some (.arr xs) →
        ∀ a ∈ st.activity, ∃ x ∈ xs, asActivity x = some a) ∧
      (∀ xs, (JValue.obj [("tasks", .arr [.num 7]),
          ("activity", .arr [.str "junk", actJ])]).getField "messages" =
          some (.arr xs) →
        ∀ m ∈ st.messages, ∃ x ∈ xs, asMessage x = some m) ∧
      (∀ xs, (JValue.obj [("tasks", .arr [.num 7]),
          ("activity", .arr [.str "junk", actJ])]).getField "documents" =
          some (.arr xs) →
        ∀ d ∈ st.documents, ∃ x ∈ xs, asDocument x = some d)) ∧
    sanitizeTask "f" "n" (.obj []) = .ok defaultTaskW :=
  ⟨by decide,
    (sanitizeBoardState_total_and_drops "f" "n"
      (JValue.obj [("tasks", .arr [.num 7]),
        ("activity", .arr [.str "junk", actJ])]) (by decide)).1,
    (sanitizeBoardState_total_and_drops "f" "n"
      (JValue.obj [("tasks", .arr [.num 7]),
        ("activity", .arr [.str "junk", actJ])]) (by decide)).2⟩

end TaskBoard
